import Mathlib

/-!
Verification development for the nullmaps layer/session state core.

The TypeScript source is shallowly embedded: JS numbers are modelled as
exact rationals (every IEEE-754 double is a rational; the transcendental
Web-Mercator formulas of `processGeometry` are modelled over the reals),
JS `Map`s as insertion-ordered association lists, JS `Set`s as
insertion-ordered duplicate-free lists (`Array.from` of either returns the
underlying list), and each remote HTTP request as an oracle function
returning `Except` (rejected promise ↦ `.error`).  `Promise.allSettled`
over `layers.map (...)` therefore becomes a per-element partition of the
oracle's outcomes, in layer order, exactly as the `forEach` over the
settled array does in the source.  `Array.prototype.sort` (a stable sort
in modern engines) is modelled by the stable `List.insertionSort` on the
relation "comparator result ≤ 0"; `String.prototype.localeCompare` is
modelled as
code-point comparison (the source only compares ASCII names and
lower-cases before the search comparison).
-/

/-- JS `Map.prototype.get`, on the association-list model of a `Map`. -/
def mapGet (k : String) (m : List (String × α)) : Option α :=
  (m.find? (fun p => p.1 == k)).map (·.2)

/-- JS `Map.prototype.has`. -/
def mapHas (k : String) (m : List (String × α)) : Bool :=
  m.any (fun p => p.1 == k)

/-- JS `Map.prototype.set`: an existing key keeps its position and gets the
new value; a new key is appended (insertion order). -/
def mapSet (k : String) (v : α) (m : List (String × α)) : List (String × α) :=
  if mapHas k m then
    m.map (fun p => if p.1 == k then (k, v) else p)
  else
    m ++ [(k, v)]

/-- The whitespace class used by `trim` and `\s` (restricted to the ASCII
whitespace that can occur in coordinate input; JS also matches further
Unicode space characters, which no claim exercises). -/
def isJsWhitespace (c : Char) : Bool :=
  c == ' ' || c == '\t' || c == '\n' || c == '\r'

/-- `String.prototype.trim` on the character-list view. -/
def jsTrim (cs : List Char) : List Char :=
  ((cs.dropWhile isJsWhitespace).reverse.dropWhile isJsWhitespace).reverse

/-- `String.prototype.trim`. -/
def jsTrimString (s : String) : String :=
  ⟨jsTrim s.data⟩

/-- `String.prototype.toLowerCase` on one character (the source only
lower-cases ASCII names). -/
def charLower (c : Char) : Char :=
  if 65 ≤ c.toNat ∧ c.toNat ≤ 90 then Char.ofNat (c.toNat + 32) else c

/-- `String.prototype.toLowerCase`. -/
def strLower (s : String) : String :=
  ⟨s.data.map charLower⟩

/-- `String.prototype.startsWith`. -/
def strStartsWith (s t : String) : Bool :=
  t.data.isPrefixOf s.data

/-- Code-point comparison of character lists: `charListLe a b` is
"`a.localeCompare(b) ≤ 0`" in the code-point model of `localeCompare`. -/
def charListLe : List Char → List Char → Bool
  | [], _ => true
  | _ :: _, [] => false
  | a :: as, b :: bs =>
    if a.toNat < b.toNat then true
    else if b.toNat < a.toNat then false
    else charListLe as bs

/-- `a.localeCompare(b) ≤ 0` in the code-point model. -/
def strLe (a b : String) : Bool :=
  charListLe a.data b.data

/-- `String.prototype.replace` with a one-character pattern (the source
uses `serviceName.replace('/', '_')`, and a string pattern replaces only
the first occurrence — service names contain exactly one slash). -/
def jsReplaceChar (pat sub : Char) (s : String) : String :=
  ⟨replaceFirst s.data⟩
where
  replaceFirst : List Char → List Char
    | [] => []
    | c :: rest => if c == pat then sub :: rest else c :: replaceFirst rest

/-- `listService.ts` `SearchableLayer`, restricted to the fields the query
engine and store read (`id`, `layerId`, `name`, `serviceName`, `type`). -/
structure SearchableLayer where
  id : String
  layerId : Nat
  name : String
  serviceName : String
  type : String
deriving DecidableEq

/-- Normalized feature geometry of `searchService.ts` (`SearchResult.geometry`
tagged union).  Coordinates are geographic doubles, modelled as rationals. -/
inductive FeatureGeometry where
  | point (x y : ℚ)
  | polyline (paths : List (List (ℚ × ℚ)))
  | polygon (rings : List (List (ℚ × ℚ)))
deriving DecidableEq

/-- `searchService.ts` `SearchResult`, restricted to the fields the
merge/sort/response code reads.  `displayName` is optional in the source
(the comparators read `displayName || ''`). -/
structure SearchResult where
  id : String
  layerId : String
  layerName : String
  serviceName : String
  displayName : Option String
  geometry : Option FeatureGeometry
deriving DecidableEq

/-- `searchService.ts` `SearchResponse`.  An error entry is the pair
`(layerId, error message)`. -/
structure SearchResponse where
  results : List SearchResult
  hasMore : Bool
  totalCount : Nat
  errors : List (String × String)
deriving DecidableEq

/-- The relevance comparator of `searchFeatures` (`results.sort`), as the
boolean relation "comparator value ≤ 0".  `searchTerm` is the lower-cased
query text; names are lower-cased exactly as in the source. -/
def searchCmpLe (searchTerm : String) (a b : SearchResult) : Bool :=
  let aName := strLower (a.displayName.getD "")
  let bName := strLower (b.displayName.getD "")
  if aName == searchTerm && !(bName == searchTerm) then true
  else if bName == searchTerm && !(aName == searchTerm) then false
  else if strStartsWith aName searchTerm && !(strStartsWith bName searchTerm) then true
  else if strStartsWith bName searchTerm && !(strStartsWith aName searchTerm) then false
  else strLe aName bName

/-- `searchFeatures` of `searchService.ts` (lines 135-218).  The per-layer
request `searchLayerFeatures` (query construction, HTTP, payload decoding)
is the oracle `fetch`; a fulfilled per-layer promise carries the processed
feature list (its `totalCount` is that list's length).  The
`Promise.allSettled` join partitions outcomes in layer order, successes
are concatenated, errors keyed by `layer.id`; results are sorted by the
relevance comparator and sliced to `maxResults * layers.length`.
(The `where` option only matters to the empty-query guard at this level;
its per-layer effect is inside the oracle.) -/
def searchFeatures (fetch : SearchableLayer → Except String (List SearchResult))
    (layers : List SearchableLayer) (text : String) (whereClause : Option String)
    (maxResults : Nat) : SearchResponse :=
  if jsTrimString text = "" ∧ whereClause = none then
    ⟨[], false, 0, []⟩
  else
    let results := (layers.filterMap (fun l => (fetch l).toOption)).flatten
    let errors := layers.filterMap (fun l =>
      match fetch l with
      | .ok _ => none
      | .error e => some (l.id, e))
    let totalCount := (layers.filterMap (fun l => (fetch l).toOption)).foldr
      (fun v acc => v.length + acc) 0
    let sorted := results.insertionSort (fun a b => searchCmpLe (strLower text) a b = true)
    ⟨sorted.take (maxResults * layers.length),
      decide (results.length < totalCount), totalCount, errors⟩

/-- `clickQueryService.ts` `ClickQueryResult`: a `SearchResult` plus the
optional distance from the click point.  The source stores
`sqrt(dx² + dy²)`; the model stores the squared distance `dx² + dy²` —
`sqrt` is strictly monotone on nonnegatives, so every comparison the
sort comparator performs on distances agrees with the source. -/
structure ClickQueryResult extends SearchResult where
  distance : Option ℚ
deriving DecidableEq

/-- `clickQueryService.ts` `ClickQueryResponse`. -/
structure ClickQueryResponse where
  results : List ClickQueryResult
  clickLocation : ℚ × ℚ
  queriedLayers : Nat
  errors : List (String × String)
deriving DecidableEq

/-- `calculateDistance` (clickQueryService.ts lines 305-323): only `Point`
geometry computes a distance (squared in the model, see `ClickQueryResult`);
missing geometry and polyline/polygon geometry yield `undefined`. -/
def calculateDistance (clickPoint : ℚ × ℚ) (featureGeometry : Option FeatureGeometry) :
    Option ℚ :=
  match featureGeometry with
  | some (.point x y) =>
      some ((clickPoint.1 - x) * (clickPoint.1 - x) + (clickPoint.2 - y) * (clickPoint.2 - y))
  | _ => none

/-- The spread `{ ...feature, distance: calculateDistance(geometry, feature.geometry) }`
applied to each fulfilled layer's features. -/
def attachDistance (clickPoint : ℚ × ℚ) (r : SearchResult) : ClickQueryResult :=
  ⟨r, calculateDistance clickPoint r.geometry⟩

/-- The distance comparator of `queryFeaturesAtLocation` (`results.sort`,
lines 90-99), as the boolean relation "comparator value ≤ 0": when both
features carry a distance the comparator returns their difference;
otherwise it compares layer name, then display name (`localeCompare`
modelled as code-point order). -/
def clickCmpLe (a b : ClickQueryResult) : Bool :=
  match a.distance, b.distance with
  | some da, some db => decide (da ≤ db)
  | _, _ =>
    if !(a.layerName == b.layerName) then strLe a.layerName b.layerName
    else strLe (a.displayName.getD "") (b.displayName.getD "")

/-- `queryFeaturesAtLocation` of `clickQueryService.ts` (lines 42-116).
The per-layer spatial request `queryLayerAtLocation` is the oracle
`fetch`.  Empty layer list short-circuits; otherwise the settle-all join
partitions outcomes in layer order, each fulfilled layer's features get a
distance attached, the merged list is sorted by `clickCmpLe` and sliced
to `maxResults * layers.length`. -/
def queryFeaturesAtLocation (fetch : SearchableLayer → Except String (List SearchResult))
    (layers : List SearchableLayer) (geometry : ℚ × ℚ) (maxResults : Nat) :
    ClickQueryResponse :=
  if layers = [] then
    ⟨[], geometry, 0, []⟩
  else
    let results := (layers.filterMap (fun l =>
      ((fetch l).toOption).map (fun v => v.map (attachDistance geometry)))).flatten
    let errors := layers.filterMap (fun l =>
      match fetch l with
      | .ok _ => none
      | .error e => some (l.id, e))
    let sorted := results.insertionSort (fun a b => clickCmpLe a b = true)
    ⟨sorted.take (maxResults * layers.length), geometry, layers.length, errors⟩

/-- `listService.ts` `ArcGISLayer`, restricted to the fields `loadAllLayers`
reads when flattening a service. -/
structure ArcGISLayer where
  id : Nat
  name : String
  type : String
  defaultVisibility : Bool
deriving DecidableEq

/-- `listService.ts` `ArcGISMapServer`, restricted to the fields
`loadAllLayers` reads. -/
structure ArcGISMapServer where
  serviceName : String
  serviceUrl : String
  name : String
  layers : List ArcGISLayer
deriving DecidableEq

/-- The catalog-side layer record built by `loadAllLayers` (a restriction of
`SearchableLayer` to the fields assigned there). -/
structure CatalogLayer where
  id : String
  layerId : Nat
  name : String
  serviceName : String
  serviceUrl : String
  type : String
  defaultVisibility : Bool
deriving DecidableEq

/-- The body of the per-service batch callback in `loadAllLayers`
(listService.ts lines 237-280): a failed `fetchMapService` contributes zero
layers (`catch` → `[]`); a `Basemaps/` service flattens to one virtual
layer; a public service flattens each declared layer. -/
def serviceToLayers (serviceName : String) (fetched : Except String ArcGISMapServer) :
    List CatalogLayer :=
  match fetched with
  | .error _ => []
  | .ok mapServer =>
    if strStartsWith serviceName "Basemaps/" then
      [{ id := jsReplaceChar '/' '_' serviceName
         layerId := 0
         name := mapServer.name
         serviceName := mapServer.serviceName
         serviceUrl := mapServer.serviceUrl
         type := "Basemap Layer"
         defaultVisibility := false }]
    else
      mapServer.layers.map (fun layer =>
        { id := serviceName ++ "_" ++ toString layer.id
          layerId := layer.id
          name := layer.name
          serviceName := mapServer.serviceName
          serviceUrl := mapServer.serviceUrl
          type := layer.type
          defaultVisibility := layer.defaultVisibility })

/-- `loadAllLayers` of `listService.ts` (lines 219-297), on an empty cache.
The two namespace listings (`fetchPublicServices`, `fetchBasemapServices`)
are joined with `Promise.all`, and both re-throw their fetch errors, so a
rejection of either listing rejects the join; `loadAllLayers`'s own
`catch` only logs and re-throws.  (When both listings fail, the rejection
that wins is timing-dependent in JS; the model takes the public one —
no claim inspects which.)  On success the service names are concatenated
(public then basemap) and each service is flattened by `serviceToLayers`;
the batching (size 5) and the 100ms inter-batch delay do not affect the
resulting value.  `describeService` is the `fetchMapService` oracle. -/
def loadAllLayers (publicListing basemapListing : Except String (List String))
    (describeService : String → Except String ArcGISMapServer) :
    Except String (List CatalogLayer) :=
  match publicListing, basemapListing with
  | .error e, _ => .error e
  | .ok _, .error e => .error e
  | .ok publicServices, .ok basemapServices =>
    .ok (((publicServices ++ basemapServices).map
      (fun serviceName => serviceToLayers serviceName (describeService serviceName))).flatten)

/-- The side effects a store mutation schedules via `setTimeout(..., 0)`. -/
inductive StoreEffect where
  | updateDynamicMapLayer (layerId : String)
  | reconcileLayerOrder
  | saveState
deriving DecidableEq

/-- `mapStore.ts` `MapState`, restricted to the fields the verified
operations read or write.  `mapAttached` models `state.map !== null`,
`isLoaded` models `state.isLoaded`; the `dynamicLayers` catalog keeps only
its key set (the toggle guard only performs a lookup). -/
structure MapStoreState where
  mapAttached : Bool
  isLoaded : Bool
  activeBasemap : String
  activeLayerIds : List String
  dynamicLayers : List String
  activeDynamicLayerIds : List String
  dynamicLayerOrder : List String
  dynamicLayerOpacities : List (String × ℚ)
  dynamicLayerVisibilities : List (String × Bool)
  favoriteLayerIds : List String
  layerSearchableFields : List (String × List String)
  center : ℚ × ℚ
  zoom : ℚ
  bearing : ℚ
deriving DecidableEq

/-- `mapStore.ts` `toggleDynamicLayer` (lines 379-427), returning the new
state together with the scheduled side effects.  An unknown id returns the
state unchanged before any effect is scheduled; otherwise membership in
the active set flips, the order sequence drops or appends the id, default
opacity (0.8) and visibility (true) are seeded if absent, a renderer
reconciliation is scheduled only when the map is attached and loaded, and
a persistence write is always scheduled. -/
def toggleDynamicLayer (layerId : String) (state : MapStoreState) :
    MapStoreState × List StoreEffect :=
  if layerId ∉ state.dynamicLayers then (state, [])
  else
    let newActiveDynamicLayerIds :=
      if layerId ∈ state.activeDynamicLayerIds then
        state.activeDynamicLayerIds.filter (fun x => !(x == layerId))
      else state.activeDynamicLayerIds ++ [layerId]
    let newDynamicLayerOrder :=
      if layerId ∈ state.activeDynamicLayerIds then
        state.dynamicLayerOrder.filter (fun x => !(x == layerId))
      else if layerId ∈ state.dynamicLayerOrder then state.dynamicLayerOrder
      else state.dynamicLayerOrder ++ [layerId]
    let newOpacities :=
      if mapHas layerId state.dynamicLayerOpacities then
        state.dynamicLayerOpacities
      else state.dynamicLayerOpacities ++ [(layerId, (8 : ℚ) / 10)]
    let newVisibilities :=
      if mapHas layerId state.dynamicLayerVisibilities then
        state.dynamicLayerVisibilities
      else state.dynamicLayerVisibilities ++ [(layerId, true)]
    let effects :=
      (if state.mapAttached && state.isLoaded then
        [StoreEffect.updateDynamicMapLayer layerId] else []) ++ [StoreEffect.saveState]
    ({ state with
        activeDynamicLayerIds := newActiveDynamicLayerIds
        dynamicLayerOrder := newDynamicLayerOrder
        dynamicLayerOpacities := newOpacities
        dynamicLayerVisibilities := newVisibilities }, effects)

/-- `mapStore.ts` `reorderDynamicLayers` (lines 629-716): with no attached
map the updater returns the state unchanged; otherwise the order sequence
is replaced wholesale by `newOrder` (no validation against the active
set), the renderer layers are removed and re-added (renderer effects),
and a persistence write is scheduled. -/
def reorderDynamicLayers (newOrder : List String) (state : MapStoreState) :
    MapStoreState × List StoreEffect :=
  if state.mapAttached = false then (state, [])
  else
    ({ state with dynamicLayerOrder := newOrder },
      [StoreEffect.reconcileLayerOrder, StoreEffect.saveState])

/-- `mapStore.ts` `setDynamicLayerOpacity` (lines 527-550): the value is
clamped with `Math.max(0, Math.min(1, opacity))` and stored under the id
(no catalog or active-set check); the live paint update is a renderer
effect and a persistence write is scheduled. -/
def setDynamicLayerOpacity (layerId : String) (opacity : ℚ) (state : MapStoreState) :
    MapStoreState × List StoreEffect :=
  let clampedOpacity := max 0 (min 1 opacity)
  ({ state with dynamicLayerOpacities := mapSet layerId clampedOpacity state.dynamicLayerOpacities },
    [StoreEffect.saveState])

/-- The freshly initialized session state (no saved snapshot in storage:
every collection starts empty, viewport at the Tasmania defaults of
`listServices.ts`).  `catalog` is the id set installed by
`setDynamicLayers` once discovery completes; `mapAttached`/`isLoaded`
record whether `setMap` has attached a loaded rendering surface. -/
def initialMapStoreState (catalog : List String) (mapAttached isLoaded : Bool) :
    MapStoreState where
  mapAttached := mapAttached
  isLoaded := isLoaded
  activeBasemap := "carto-light"
  activeLayerIds := []
  dynamicLayers := catalog
  activeDynamicLayerIds := []
  dynamicLayerOrder := []
  dynamicLayerOpacities := []
  dynamicLayerVisibilities := []
  favoriteLayerIds := []
  layerSearchableFields := []
  center := ((1468 : ℚ) / 10, -(42 : ℚ))
  zoom := (65 : ℚ) / 10
  bearing := 0

/-- One store call in a toggle/reorder call sequence. -/
inductive StoreOp where
  | toggle (layerId : String)
  | reorder (newOrder : List String)

/-- Apply one call (state component only). -/
def applyStoreOp (state : MapStoreState) : StoreOp → MapStoreState
  | .toggle layerId => (toggleDynamicLayer layerId state).1
  | .reorder newOrder => (reorderDynamicLayers newOrder state).1

/-- Run a call sequence left to right. -/
def runStoreOps (state : MapStoreState) (ops : List StoreOp) : MapStoreState :=
  ops.foldl applyStoreOp state

/-- The order-sequence invariant of the spec: the order sequence has no
duplicates and its members are exactly the active dynamic layer ids. -/
def OrderInvariant (state : MapStoreState) : Prop :=
  state.dynamicLayerOrder.Nodup ∧
  (∀ layerId ∈ state.dynamicLayerOrder, layerId ∈ state.activeDynamicLayerIds) ∧
  (∀ layerId ∈ state.activeDynamicLayerIds, layerId ∈ state.dynamicLayerOrder)

instance (state : MapStoreState) : Decidable (OrderInvariant state) := by
  unfold OrderInvariant
  infer_instance

/-- `newOrder` is a permutation of the given active-id list: no duplicates
and the same members. -/
def PermutationOfActive (newOrder activeIds : List String) : Prop :=
  newOrder.Nodup ∧
  (∀ layerId ∈ newOrder, layerId ∈ activeIds) ∧
  (∀ layerId ∈ activeIds, layerId ∈ newOrder)

instance (newOrder activeIds : List String) :
    Decidable (PermutationOfActive newOrder activeIds) := by
  unfold PermutationOfActive
  infer_instance

/-- A call sequence is caller-validated when every `reorderDynamicLayers`
call that takes effect (map attached) passes a permutation of the
then-active ids — the validation the spec assigns to the caller. -/
inductive ValidatedOps : MapStoreState → List StoreOp → Prop
  | nil (state : MapStoreState) : ValidatedOps state []
  | toggle (state : MapStoreState) (layerId : String) (ops : List StoreOp) :
      ValidatedOps (applyStoreOp state (.toggle layerId)) ops →
      ValidatedOps state (.toggle layerId :: ops)
  | reorder (state : MapStoreState) (newOrder : List String) (ops : List StoreOp) :
      (state.mapAttached = true →
        PermutationOfActive newOrder state.activeDynamicLayerIds) →
      ValidatedOps (applyStoreOp state (.reorder newOrder)) ops →
      ValidatedOps state (.reorder newOrder :: ops)

/-- `mapStore.ts` `PersistedMapState`: the tracked projection of the
session state that `saveState` persists. -/
structure PersistedMapState where
  activeBasemap : String
  activeLayerIds : List String
  activeDynamicLayerIds : List String
  dynamicLayerOrder : List String
  dynamicLayerOpacities : List (String × ℚ)
  dynamicLayerVisibilities : List (String × Bool)
  favoriteLayerIds : List String
  layerSearchableFields : List (String × List String)
  center : ℚ × ℚ
  zoom : ℚ
  bearing : ℚ
deriving DecidableEq

/-- JSON values, the codomain of `JSON.stringify`/`JSON.parse`.  Numbers
are carried as exact rationals: `JSON.stringify` prints the shortest
representation that parses back to the same double, so a JS number
round-trips exactly through storage. -/
inductive JsonVal where
  | null
  | bool (b : Bool)
  | num (q : ℚ)
  | str (s : String)
  | arr (items : List JsonVal)
  | obj (fields : List (String × JsonVal))

/-- A `[layerId, opacity]` entry as produced by `Array.from(map.entries())`. -/
def encodeOpacityEntry (p : String × ℚ) : JsonVal := .arr [.str p.1, .num p.2]

/-- A `[layerId, visible]` entry. -/
def encodeVisibilityEntry (p : String × Bool) : JsonVal := .arr [.str p.1, .bool p.2]

/-- A `[layerId, fieldNames]` entry (the field-name `Set` serialized via
`Array.from`). -/
def encodeFieldsEntry (p : String × List String) : JsonVal :=
  .arr [.str p.1, .arr (p.2.map .str)]

/-- `JSON.stringify` applied to the `persistedState` object literal of
`saveState` (mapStore.ts lines 1328-1342), field for field. -/
def encodePersistedState (p : PersistedMapState) : JsonVal :=
  .obj
    [("activeBasemap", .str p.activeBasemap),
     ("activeLayerIds", .arr (p.activeLayerIds.map .str)),
     ("activeDynamicLayerIds", .arr (p.activeDynamicLayerIds.map .str)),
     ("dynamicLayerOrder", .arr (p.dynamicLayerOrder.map .str)),
     ("dynamicLayerOpacities", .arr (p.dynamicLayerOpacities.map encodeOpacityEntry)),
     ("dynamicLayerVisibilities", .arr (p.dynamicLayerVisibilities.map encodeVisibilityEntry)),
     ("favoriteLayerIds", .arr (p.favoriteLayerIds.map .str)),
     ("layerSearchableFields", .arr (p.layerSearchableFields.map encodeFieldsEntry)),
     ("center", .arr [.num p.center.1, .num p.center.2]),
     ("zoom", .num p.zoom),
     ("bearing", .num p.bearing)]

/-- Property read on a parsed JSON object (`parsed.fieldName`). -/
def jsonField (j : JsonVal) (key : String) : Option JsonVal :=
  match j with
  | .obj fields => (fields.find? (fun p => p.1 == key)).map (·.2)
  | _ => none

/-- Expect a JSON string. -/
def jsonStr? : JsonVal → Option String
  | .str s => some s
  | _ => none

/-- Expect a JSON number. -/
def jsonNum? : JsonVal → Option ℚ
  | .num q => some q
  | _ => none

/-- Expect a JSON boolean. -/
def jsonBool? : JsonVal → Option Bool
  | .bool b => some b
  | _ => none

/-- Option-valued traversal (decode every element or fail). -/
def traverseOption (f : α → Option β) : List α → Option (List β)
  | [] => some []
  | a :: as =>
    match f a, traverseOption f as with
    | some b, some bs => some (b :: bs)
    | _, _ => none

/-- Decode a JSON array of strings. -/
def decodeStrList : JsonVal → Option (List String)
  | .arr items => traverseOption jsonStr? items
  | _ => none

/-- Decode a `[layerId, opacity]` entry. -/
def decodeOpacityEntry : JsonVal → Option (String × ℚ)
  | .arr [a, b] =>
    match jsonStr? a, jsonNum? b with
    | some k, some v => some (k, v)
    | _, _ => none
  | _ => none

/-- Decode a `[layerId, visible]` entry. -/
def decodeVisibilityEntry : JsonVal → Option (String × Bool)
  | .arr [a, b] =>
    match jsonStr? a, jsonBool? b with
    | some k, some v => some (k, v)
    | _, _ => none
  | _ => none

/-- Decode a `[layerId, fieldNames]` entry. -/
def decodeFieldsEntry : JsonVal → Option (String × List String)
  | .arr [a, b] =>
    match jsonStr? a, decodeStrList b with
    | some k, some v => some (k, v)
    | _, _ => none
  | _ => none

/-- Decode a `[lng, lat]` pair. -/
def decodeCenter : JsonVal → Option (ℚ × ℚ)
  | .arr [a, b] =>
    match jsonNum? a, jsonNum? b with
    | some x, some y => some (x, y)
    | _, _ => none
  | _ => none

/-- The consumption of a parsed snapshot: `loadStateFromStorage` returns
`JSON.parse(saved)` cast to `Partial<PersistedMapState>` and the
initializers read each field structurally; the cast plus those field
reads are modelled as one structural decoder. -/
def decodePersistedState (j : JsonVal) : Option PersistedMapState := do
  let activeBasemap ← (jsonField j "activeBasemap").bind jsonStr?
  let activeLayerIds ← (jsonField j "activeLayerIds").bind decodeStrList
  let activeDynamicLayerIds ← (jsonField j "activeDynamicLayerIds").bind decodeStrList
  let dynamicLayerOrder ← (jsonField j "dynamicLayerOrder").bind decodeStrList
  let dynamicLayerOpacities ← (jsonField j "dynamicLayerOpacities").bind
    (fun v => match v with
      | .arr items => traverseOption decodeOpacityEntry items
      | _ => none)
  let dynamicLayerVisibilities ← (jsonField j "dynamicLayerVisibilities").bind
    (fun v => match v with
      | .arr items => traverseOption decodeVisibilityEntry items
      | _ => none)
  let favoriteLayerIds ← (jsonField j "favoriteLayerIds").bind decodeStrList
  let layerSearchableFields ← (jsonField j "layerSearchableFields").bind
    (fun v => match v with
      | .arr items => traverseOption decodeFieldsEntry items
      | _ => none)
  let center ← (jsonField j "center").bind decodeCenter
  let zoom ← (jsonField j "zoom").bind jsonNum?
  let bearing ← (jsonField j "bearing").bind jsonNum?
  pure ⟨activeBasemap, activeLayerIds, activeDynamicLayerIds, dynamicLayerOrder,
    dynamicLayerOpacities, dynamicLayerVisibilities, favoriteLayerIds,
    layerSearchableFields, center, zoom, bearing⟩

/-- `saveStateToStorage` (mapStore.ts lines 66-73): serialize the snapshot
and overwrite the `nullmaps-state` slot, modelled as an `Option JsonVal`
cell (the quota-failure branch only logs). -/
def saveStateToStorage (state : PersistedMapState) (_storage : Option JsonVal) :
    Option JsonVal :=
  some (encodePersistedState state)

/-- `loadStateFromStorage` (mapStore.ts lines 75-84): parse the stored
slot if present (see `decodePersistedState` for the cast model). -/
def loadStateFromStorage (storage : Option JsonVal) : Option PersistedMapState :=
  storage.bind decodePersistedState

/-- The `persistedState` projection built by `saveState` (mapStore.ts
lines 1326-1344): `Array.from` on a `Set`/`Map` returns the underlying
insertion-ordered list. -/
def persistedStateOf (s : MapStoreState) : PersistedMapState where
  activeBasemap := s.activeBasemap
  activeLayerIds := s.activeLayerIds
  activeDynamicLayerIds := s.activeDynamicLayerIds
  dynamicLayerOrder := s.dynamicLayerOrder
  dynamicLayerOpacities := s.dynamicLayerOpacities
  dynamicLayerVisibilities := s.dynamicLayerVisibilities
  favoriteLayerIds := s.favoriteLayerIds
  layerSearchableFields := s.layerSearchableFields
  center := s.center
  zoom := s.zoom
  bearing := s.bearing

/-- `saveState`: project the session state and write it to storage. -/
def saveState (s : MapStoreState) (storage : Option JsonVal) : Option JsonVal :=
  saveStateToStorage (persistedStateOf s) storage


/-- A character consumed by the separator normalization of
`parseCoordinateInput`: whitespace or a comma. -/
def isSeparatorChar (c : Char) : Bool :=
  isJsWhitespace c || c == ','

/-- The tokenization of `parseCoordinateInput` (coordinateService.ts lines
140-146): `.replace(/\s*,\s*/g, ' ').replace(/\s+/g, ' ').split(' ')` on
the trimmed input.  The first replace turns every comma and its adjacent
whitespace into one space, so a maximal run of whitespace/comma characters
becomes a run of spaces (and leftover whitespace), which the second
replace collapses into exactly one space; characters outside such runs
are untouched.  Hence the cleaned string is the non-separator fields
joined by single spaces — with an empty leading/trailing field exactly
when the trimmed input starts/ends with a separator run (necessarily
containing a comma at the start/end, since the input was trimmed) — and
`split(' ')` returns those fields.  `splitFields` produces the fields of
that composite directly. -/
def splitFieldsAux : Nat → List Char → List (List Char)
  | 0, _ => []
  | fuel + 1, cs =>
    match cs.dropWhile (fun c => !(isSeparatorChar c)) with
    | [] => [cs.takeWhile (fun c => !(isSeparatorChar c))]
    | _ :: rest2 =>
      cs.takeWhile (fun c => !(isSeparatorChar c)) ::
        splitFieldsAux fuel (rest2.dropWhile isSeparatorChar)

/-- See the tokenization comment above: split on maximal nonempty separator
runs, keeping empty boundary fields.  Each recursive step consumes at
least one separator character, so `cs.length + 1` units of fuel always
suffice; the fuel only keeps the recursion structural. -/
def splitFields (cs : List Char) : List (List Char) :=
  splitFieldsAux (cs.length + 1) cs

/-- Digit-string value (the integer read off a run of ASCII digits). -/
def digitsToNat (ds : List Char) : ℕ :=
  ds.foldl (fun acc c => acc * 10 + (c.toNat - '0'.toNat)) 0

/-- JS `parseFloat` composed with the `Number.isFinite` acceptance check of
`parseCoordinateInput`: parse the longest numeric-literal prefix
(optional sign, digits with optional decimal point and fraction, optional
exponent whose digits must be nonempty to be consumed) and return its
exact rational value; return `none` when no numeric prefix exists
(`parseFloat` = `NaN`) or the prefix is an `Infinity` literal
(`Number.isFinite` fails).  Float overflow of astronomically large
exponents (`parseFloat("1e400")` = `Infinity`) is outside the model,
which is exact. -/
def jsParseFloatFinite (cs0 : List Char) : Option ℚ :=
  let cs1 := cs0.dropWhile isJsWhitespace
  let signed : ℚ × List Char :=
    match cs1 with
    | '-' :: rest => (-1, rest)
    | '+' :: rest => (1, rest)
    | _ => (1, cs1)
  let sign := signed.1
  let cs := signed.2
  if ([ 'I', 'n', 'f', 'i', 'n', 'i', 't', 'y'] : List Char).isPrefixOf cs then none
  else
    let intPart := cs.takeWhile Char.isDigit
    let rest1 := cs.dropWhile Char.isDigit
    let fracSplit : List Char × List Char :=
      match rest1 with
      | '.' :: r => (r.takeWhile Char.isDigit, r.dropWhile Char.isDigit)
      | _ => ([], rest1)
    let fracPart := fracSplit.1
    let rest2 := fracSplit.2
    if intPart.isEmpty && fracPart.isEmpty then none
    else
      let exponent : ℤ :=
        match rest2 with
        | 'e' :: r | 'E' :: r =>
          match r with
          | '-' :: r2 =>
            let ds := r2.takeWhile Char.isDigit
            if ds.isEmpty then 0 else -(digitsToNat ds : ℤ)
          | '+' :: r2 =>
            let ds := r2.takeWhile Char.isDigit
            if ds.isEmpty then 0 else (digitsToNat ds : ℤ)
          | _ =>
            let ds := r.takeWhile Char.isDigit
            if ds.isEmpty then 0 else (digitsToNat ds : ℤ)
        | _ => 0
      let mantissa : ℚ :=
        (digitsToNat intPart : ℚ) + (digitsToNat fracPart : ℚ) / (10 : ℚ) ^ fracPart.length
      some (sign * mantissa * (10 : ℚ) ^ exponent)

/-- `coordinateService.ts` `MGACoordinate`. -/
structure MGACoordinate where
  easting : ℚ
  northing : ℚ
deriving DecidableEq

/-- `parseCoordinateInput` (coordinateService.ts lines 134-160): reject the
empty string (falsy), tokenize (see `splitFields`), require exactly two
tokens, `parseFloat` each and require both finite. -/
def parseCoordinateInput (input : String) : Option MGACoordinate :=
  if input = "" then none
  else
    match splitFields (jsTrim input.data) with
    | [t1, t2] =>
      match jsParseFloatFinite t1, jsParseFloatFinite t2 with
      | some easting, some northing => some ⟨easting, northing⟩
      | _, _ => none
    | _ => none

/-- Raw ArcGIS geometry as received by `processGeometry`
(searchService.ts lines 513-555): a point carries `x`/`y` scalars, a
polyline carries `paths`, a polygon carries `rings`.  Coordinates are
modelled over ℝ because the point branch applies transcendental
Web-Mercator formulas. -/
inductive ArcGISGeometry where
  | point (x y : ℝ)
  | paths (paths : List (List (ℝ × ℝ)))
  | rings (rings : List (List (ℝ × ℝ)))

/-- The normalized geometry produced by `processGeometry`. -/
inductive ProcessedGeometry where
  | point (x y : ℝ)
  | polyline (paths : List (List (ℝ × ℝ)))
  | polygon (rings : List (List (ℝ × ℝ)))

/-- The spherical Web-Mercator longitude inverse of `processGeometry`:
`(x / 20037508.34) * 180`. -/
noncomputable def webMercatorLng (x : ℝ) : ℝ :=
  x / 20037508.34 * 180

/-- The spherical Web-Mercator latitude inverse of `processGeometry`:
`atan(exp((y / 20037508.34) * π)) * 360 / π - 90`. -/
noncomputable def webMercatorLat (y : ℝ) : ℝ :=
  Real.arctan (Real.exp (y / 20037508.34 * Real.pi)) * 360 / Real.pi - 90

open Classical in
/-- `processGeometry` (searchService.ts lines 513-555): a point whose
coordinates are outside geographic range (`|x| > 180 || |y| > 90`) is
treated as Web Mercator and inverted; an in-range point passes through
unchanged; paths/rings pass through as polyline/polygon; missing geometry
yields `undefined`.  (The `spatialReference` passthrough is dropped: no
claim reads it.) -/
noncomputable def processGeometry : Option ArcGISGeometry → Option ProcessedGeometry
  | none => none
  | some (.point x y) =>
    if |x| > 180 ∨ |y| > 90 then
      some (.point (webMercatorLng x) (webMercatorLat y))
    else
      some (.point x y)
  | some (.paths ps) => some (.polyline ps)
  | some (.rings rs) => some (.polygon rs)

/-- The target region's known bounds (`TASMANIA_BOUNDS.bounds` in
`listServices.ts`): southwest `[140, -46]`, northeast `[152, -38]`. -/
def withinTasmaniaBounds (lng lat : ℝ) : Prop :=
  140 ≤ lng ∧ lng ≤ 152 ∧ -46 ≤ lat ∧ lat ≤ -38

/-- The empty freshly-initialized store with the demo catalog installed and
a loaded rendering surface attached. -/
def demoState : MapStoreState :=
  initialMapStoreState ["layer-a", "layer-b"] true true

/-- Demo layer for the search-ranking example. -/
def demoLayer : SearchableLayer :=
  ⟨"Public/Demo_0", 0, "Demo", "Public/Demo", "Feature Layer"⟩

/-- A search result of the demo layer with the given display name. -/
def namedResult (n : String) : SearchResult :=
  ⟨"Public/Demo_0_" ++ n, "Public/Demo_0", "Demo", "Demo", some n, none⟩

/-- Oracle for the Hobart ranking example: one layer returning the three
spec display names. -/
def hobartFetch : SearchableLayer → Except String (List SearchResult) :=
  fun _ => .ok [namedResult "Hobart Creek", namedResult "Hobart", namedResult "Ahobart"]

/-- Layers for the settle-all examples. -/
def layerA : SearchableLayer := ⟨"A", 0, "Alpha layer", "Public/S1", "Feature Layer"⟩

def layerB : SearchableLayer := ⟨"B", 1, "Beta layer", "Public/S2", "Feature Layer"⟩

/-- Oracle where layer `A` succeeds with one point feature and layer `B`
always fails. -/
def abFetch : SearchableLayer → Except String (List SearchResult) :=
  fun l =>
    if l.id == "A" then
      .ok [⟨"A_1", "A", "Alpha layer", "S1", some "Hobart", some (.point 147 (-42))⟩]
    else
      .error "Server error when querying Beta layer"

/-- Layers for the click-sort counterexample: `Alphabet` sorts before
`Zebra` by layer name. -/
def layerAlphabet : SearchableLayer := ⟨"L1", 0, "Alphabet", "Public/S1", "Feature Layer"⟩

def layerZebra : SearchableLayer := ⟨"L2", 0, "Zebra", "Public/S2", "Feature Layer"⟩

/-- A polyline (non-point) feature of layer `Alphabet`. -/
def lineFeature : SearchResult :=
  ⟨"L1_1", "L1", "Alphabet", "S1", some "A line", some (.polyline [[(0, 0), (1, 1)]])⟩

/-- A point feature of layer `Zebra`, 5 degrees from the origin. -/
def pointFeature : SearchResult :=
  ⟨"L2_1", "L2", "Zebra", "S2", some "A point", some (.point 3 4)⟩

/-- Oracle for the mixed-geometry click example. -/
def mixedClickFetch : SearchableLayer → Except String (List SearchResult) :=
  fun l => if l.id == "L1" then .ok [lineFeature] else .ok [pointFeature]

/-- Three point features of layer `Zebra` at squared distances 25, 1, 4
from the origin. -/
def pointsClickFetch : SearchableLayer → Except String (List SearchResult) :=
  fun _ => .ok
    [⟨"L2_a", "L2", "Zebra", "S2", some "far", some (.point 3 4)⟩,
     ⟨"L2_b", "L2", "Zebra", "S2", some "near", some (.point 1 0)⟩,
     ⟨"L2_c", "L2", "Zebra", "S2", some "mid", some (.point 0 2)⟩]

/-- A demo map server for the catalog examples. -/
def demoMapServer : ArcGISMapServer :=
  { serviceName := "Basemaps/Topographic"
    serviceUrl := "https://services.thelist.tas.gov.au/arcgis/rest/services/Basemaps/Topographic/MapServer"
    name := "Topographic"
    layers := [] }

/-- A describe oracle that succeeds for every service. -/
def demoDescribe : String → Except String ArcGISMapServer :=
  fun _ => .ok demoMapServer

/-- The relevance rank the search comparator induces on a (lower-cased)
display name: 0 for an exact match of the search term, 1 for a proper
prefix match, 2 otherwise. -/
def searchRank (searchTerm name : String) : Nat :=
  if name = searchTerm then 0
  else if strStartsWith name searchTerm then 1
  else 2

theorem mapHas_false_forall {k : String} {m : List (String × α)}
    (h : mapHas k m = false) : ∀ p ∈ m, ¬ p.1 = k := by
  intro p hp hk
  have : mapHas k m = true := by
    simp only [mapHas, List.any_eq_true]
    exact ⟨p, hp, by simp [hk]⟩
  simp [this] at h

theorem mapGet_append_self {k : String} {v : α} {m : List (String × α)}
    (h : mapHas k m = false) : mapGet k (m ++ [(k, v)]) = some v := by
  induction m with
  | nil => simp [mapGet, List.find?]
  | cons p m ih =>
    have hp : (p.1 == k) = false := by
      have := mapHas_false_forall h p (by simp)
      simpa [beq_iff_eq] using this
    have hm : mapHas k m = false := by
      simp only [mapHas, List.any_cons, Bool.or_eq_false_iff] at h
      exact h.2
    simp only [mapGet, List.cons_append, List.find?, hp] at ih ⊢
    exact ih hm

theorem mapGet_cons_of_ne {k : String} {p : String × α} {m : List (String × α)}
    (h : (p.1 == k) = false) : mapGet k (p :: m) = mapGet k m := by
  unfold mapGet
  rw [List.find?_cons_of_neg _ (by simp [h])]

theorem mapGet_map_replace {k : String} {v : α} {m : List (String × α)}
    (h : mapHas k m = true) :
    mapGet k (m.map (fun p => if p.1 == k then (k, v) else p)) = some v := by
  induction m with
  | nil => simp [mapHas] at h
  | cons p m ih =>
    by_cases hp : p.1 = k
    · simp [mapGet, List.find?, hp]
    · have hp' : (p.1 == k) = false := by simpa [beq_iff_eq] using hp
      have hm : mapHas k m = true := by
        simp only [mapHas, List.any_cons, hp', Bool.false_or] at h
        exact h
      have hd : (if (p.1 == k) = true then (k, v) else p) = p := by
        simp [hp']
      rw [List.map_cons, hd, mapGet_cons_of_ne hp']
      exact ih hm

theorem mapGet_mapSet_self (k : String) (v : α) (m : List (String × α)) :
    mapGet k (mapSet k v m) = some v := by
  unfold mapSet
  by_cases h : mapHas k m
  · rw [if_pos h]; exact mapGet_map_replace h
  · rw [if_neg h]; exact mapGet_append_self (by simpa using h)

theorem mapHas_mapSet_self (k : String) (v : α) (m : List (String × α)) :
    mapHas k (mapSet k v m) = true := by
  unfold mapSet
  by_cases h : mapHas k m
  · rw [if_pos h]
    simp only [mapHas, List.any_eq_true] at h ⊢
    obtain ⟨p, hp, hk⟩ := h
    exact ⟨(k, v), List.mem_map.mpr ⟨p, hp, by simp [hk]⟩, by simp⟩
  · rw [if_neg h]
    simp [mapHas, List.any_eq_true]

theorem mapSet_entry_eq (k : String) (v : α) (m : List (String × α)) :
    ∀ p ∈ mapSet k v m, p.1 = k → p = (k, v) := by
  unfold mapSet
  by_cases h : mapHas k m
  · rw [if_pos h]
    intro p hp hk
    obtain ⟨q, hq, hpq⟩ := List.mem_map.mp hp
    by_cases hq1 : q.1 = k
    · have hq' : (q.1 == k) = true := by simpa [beq_iff_eq] using hq1
      rw [hq'] at hpq
      simp at hpq
      exact hpq.symm
    · have hq' : (q.1 == k) = false := by simpa [beq_iff_eq] using hq1
      rw [hq'] at hpq
      simp at hpq
      subst hpq
      exact absurd hk hq1
  · rw [if_neg h]
    intro p hp hk
    rcases List.mem_append.mp hp with hm | hm
    · exact absurd hk (mapHas_false_forall (by simpa using h) p hm)
    · simpa using hm

theorem map_replace_eq_self {k : String} {v : α} {m : List (String × α)}
    (h : ∀ p ∈ m, p.1 = k → p = (k, v)) :
    m.map (fun p => if p.1 == k then (k, v) else p) = m := by
  induction m with
  | nil => rfl
  | cons p m ih =>
    have tail : m.map (fun p => if p.1 == k then (k, v) else p) = m :=
      ih (fun q hq => h q (List.mem_cons_of_mem _ hq))
    rw [List.map_cons, tail]
    by_cases hp : p.1 = k
    · have hpv : p = (k, v) := h p (List.mem_cons_self _ _) hp
      have hp' : (p.1 == k) = true := by simpa [beq_iff_eq] using hp
      rw [hp', if_pos rfl, hpv]
    · have hp' : (p.1 == k) = false := by simpa [beq_iff_eq] using hp
      rw [hp']
      simp

theorem mapSet_idem (k : String) (v : α) (m : List (String × α)) :
    mapSet k v (mapSet k v m) = mapSet k v m := by
  have h := mapHas_mapSet_self k v m
  conv_lhs => rw [mapSet]
  rw [if_pos h]
  exact map_replace_eq_self (mapSet_entry_eq k v m)

/-- **C7**: for every layer id and every value `v`,
`setDynamicLayerOpacity(id, v)` stores `clamp(v, 0, 1)` — values below 0
store 0, values above 1 store 1, in-range values store `v` itself — and a
second call with the same value leaves the state (in particular the
stored opacity) unchanged. -/
theorem C7_opacity_clamp_idempotence (state : MapStoreState) (layerId : String) (v : ℚ) :
    mapGet layerId ((setDynamicLayerOpacity layerId v state).1.dynamicLayerOpacities) =
      some (max 0 (min 1 v)) ∧
    (v < 0 →
      mapGet layerId ((setDynamicLayerOpacity layerId v state).1.dynamicLayerOpacities) =
        some 0) ∧
    (1 < v →
      mapGet layerId ((setDynamicLayerOpacity layerId v state).1.dynamicLayerOpacities) =
        some 1) ∧
    (0 ≤ v → v ≤ 1 →
      mapGet layerId ((setDynamicLayerOpacity layerId v state).1.dynamicLayerOpacities) =
        some v) ∧
    (setDynamicLayerOpacity layerId v ((setDynamicLayerOpacity layerId v state).1)).1 =
      (setDynamicLayerOpacity layerId v state).1 := by
  have hget : mapGet layerId ((setDynamicLayerOpacity layerId v state).1.dynamicLayerOpacities) =
      some (max 0 (min 1 v)) := by
    simp only [setDynamicLayerOpacity]
    exact mapGet_mapSet_self _ _ _
  refine ⟨hget, ?_, ?_, ?_, ?_⟩
  · intro hv
    rw [hget]
    congr 1
    rw [min_eq_right (le_of_lt (lt_trans hv one_pos)), max_eq_left (le_of_lt hv)]
  · intro hv
    rw [hget]
    congr 1
    rw [min_eq_left (le_of_lt hv), max_eq_right zero_le_one]
  · intro h0 h1
    rw [hget]
    congr 1
    rw [min_eq_right h1, max_eq_right h0]
  · simp only [setDynamicLayerOpacity]
    congr 1
    exact mapSet_idem _ _ _

/-- Witness for C7 at `v = 3/2` on the demo state: the stored value is the
clamped bound 1 and the repeated call is a no-op. -/
theorem C7_opacity_clamp_idempotence_witness :
    mapGet "layer-a"
        ((setDynamicLayerOpacity "layer-a" ((3 : ℚ) / 2) demoState).1.dynamicLayerOpacities) =
      some 1 ∧
    (setDynamicLayerOpacity "layer-a" ((3 : ℚ) / 2)
        ((setDynamicLayerOpacity "layer-a" ((3 : ℚ) / 2) demoState).1)).1 =
      (setDynamicLayerOpacity "layer-a" ((3 : ℚ) / 2) demoState).1 := by
  have h := C7_opacity_clamp_idempotence demoState "layer-a" ((3 : ℚ) / 2)
  exact ⟨h.2.2.1 (by norm_num), h.2.2.2.2⟩

/-- **C10**: `toggleDynamicLayer` on an id absent from the `dynamicLayers`
catalog returns the state unchanged in every field and schedules no side
effect (neither a renderer reconciliation nor a persistence write). -/
theorem C10_toggle_unknown_id_noop (state : MapStoreState) (layerId : String)
    (h : layerId ∉ state.dynamicLayers) :
    toggleDynamicLayer layerId state = (state, []) := by
  simp only [toggleDynamicLayer, if_pos h]

/-- Witness for C10: toggling the uncataloged id `"ghost"` on the demo
state is a no-op with no effects. -/
theorem C10_toggle_unknown_id_noop_witness :
    toggleDynamicLayer "ghost" demoState = (demoState, []) :=
  C10_toggle_unknown_id_noop demoState "ghost" (by decide)

theorem orderInvariant_toggle (state : MapStoreState) (layerId : String)
    (h : OrderInvariant state) : OrderInvariant (toggleDynamicLayer layerId state).1 := by
  obtain ⟨hnd, h1, h2⟩ := h
  by_cases hcat : layerId ∈ state.dynamicLayers
  · rw [toggleDynamicLayer, if_neg (not_not_intro hcat)]
    by_cases hact : layerId ∈ state.activeDynamicLayerIds
    · simp only [if_pos hact]
      refine ⟨hnd.filter _, ?_, ?_⟩
      · intro x hx
        rw [List.mem_filter] at hx ⊢
        exact ⟨h1 x hx.1, hx.2⟩
      · intro x hx
        rw [List.mem_filter] at hx ⊢
        exact ⟨h2 x hx.1, hx.2⟩
    · have hord : layerId ∉ state.dynamicLayerOrder := fun hmem => hact (h1 _ hmem)
      simp only [if_neg hact, if_neg hord]
      refine ⟨?_, ?_, ?_⟩
      · rw [List.nodup_append]
        exact ⟨hnd, List.nodup_singleton _, by
          intro x hx hmem
          rw [List.mem_singleton] at hmem
          exact hord (hmem ▸ hx)⟩
      · intro x hx
        rcases List.mem_append.mp hx with hx | hx
        · exact List.mem_append.mpr (Or.inl (h1 x hx))
        · exact List.mem_append.mpr (Or.inr hx)
      · intro x hx
        rcases List.mem_append.mp hx with hx | hx
        · exact List.mem_append.mpr (Or.inl (h2 x hx))
        · exact List.mem_append.mpr (Or.inr hx)
  · rw [toggleDynamicLayer, if_pos hcat]
    exact ⟨hnd, h1, h2⟩

theorem orderInvariant_reorder (state : MapStoreState) (newOrder : List String)
    (h : OrderInvariant state)
    (hp : state.mapAttached = true →
      PermutationOfActive newOrder state.activeDynamicLayerIds) :
    OrderInvariant (reorderDynamicLayers newOrder state).1 := by
  rcases Bool.eq_false_or_eq_true state.mapAttached with hb | hb
  · rw [reorderDynamicLayers, if_neg (by simp [hb])]
    obtain ⟨hnd, ha, hb2⟩ := hp hb
    exact ⟨hnd, ha, hb2⟩
  · rw [reorderDynamicLayers, if_pos hb]
    exact h

theorem orderInvariant_run :
    ∀ {state : MapStoreState} {ops : List StoreOp}, ValidatedOps state ops →
      OrderInvariant state → OrderInvariant (runStoreOps state ops) := by
  intro state ops hv
  induction hv with
  | nil s => exact fun h => h
  | toggle s layerId ops _ ih =>
    exact fun h => ih (orderInvariant_toggle s layerId h)
  | reorder s newOrder ops hside _ ih =>
    exact fun h => ih (orderInvariant_reorder s newOrder h hside)

/-- **C2** (amended): after any finite sequence of `toggleDynamicLayer` and
`reorderDynamicLayers` calls from the freshly initialized session state —
any catalog, renderer attached or not — in which every
`reorderDynamicLayers` call that takes effect (renderer attached) passes
a permutation of the then-active ids (the validation the spec assigns to
the caller, which the store itself does not perform), the order sequence
contains each active dynamic layer id exactly once, contains no inactive
id, and its member set equals the active-id set. -/
theorem C2_order_sequence_invariant (catalog : List String)
    (mapAttached isLoaded : Bool) (ops : List StoreOp)
    (hv : ValidatedOps (initialMapStoreState catalog mapAttached isLoaded) ops) :
    OrderInvariant (runStoreOps (initialMapStoreState catalog mapAttached isLoaded) ops) :=
  orderInvariant_run hv
    ⟨List.nodup_nil, fun x hx => absurd hx (List.not_mem_nil x),
      fun x hx => absurd hx (List.not_mem_nil x)⟩

/-- Witness for C2: toggle two layers on, reorder them (a permutation),
toggle one back off — the invariant holds at the end. -/
theorem C2_order_sequence_invariant_witness :
    OrderInvariant (runStoreOps (initialMapStoreState ["layer-a", "layer-b"] true true)
      [.toggle "layer-a", .toggle "layer-b",
        .reorder ["layer-b", "layer-a"], .toggle "layer-a"]) := by
  apply C2_order_sequence_invariant
  apply ValidatedOps.toggle
  apply ValidatedOps.toggle
  apply ValidatedOps.reorder
  · intro _
    decide
  · apply ValidatedOps.toggle
    exact ValidatedOps.nil _

/-- Counterexample for C2 as frozen: in a session with the renderer
attached, toggling `"layer-a"` on and then calling
`reorderDynamicLayers ["bogus"]` (the store performs no validation)
leaves `"bogus"` in the order sequence while the active set is
`{"layer-a"}` — the order sequence contains an inactive id and misses an
active one. -/
theorem C2_order_sequence_invariant_counterexample :
    ¬ OrderInvariant (runStoreOps (initialMapStoreState ["layer-a", "layer-b"] true true)
      [.toggle "layer-a", .reorder ["bogus"]]) := by
  decide

/-- **C3** (amended): the two namespace listings of `loadAllLayers` are
joined with `Promise.all` and both `fetchPublicServices` and
`fetchBasemapServices` re-throw their failures, so a failure of either
listing aborts discovery entirely and propagates to the caller as a hard
error — the surviving namespace contributes nothing.  Failure isolation
exists one level down: a failed per-service describe call contributes
zero layers without failing the load. -/
theorem C3_namespace_listing_failure_aborts
    (publicServices basemapServices : List String) (e : String)
    (basemapListing : Except String (List String))
    (describeService : String → Except String ArcGISMapServer) :
    loadAllLayers (.error e) basemapListing describeService = .error e ∧
    loadAllLayers (.ok publicServices) (.error e) describeService = .error e ∧
    loadAllLayers (.ok publicServices) (.ok basemapServices) describeService =
      .ok (((publicServices ++ basemapServices).map
        (fun serviceName => serviceToLayers serviceName (describeService serviceName))).flatten) ∧
    (∀ serviceName, serviceToLayers serviceName (.error e) = []) := by
  refine ⟨rfl, rfl, rfl, fun _ => rfl⟩

/-- Witness for C3: concrete listing outcomes routed through
`loadAllLayers` with the demo describe oracle. -/
theorem C3_namespace_listing_failure_aborts_witness :
    loadAllLayers (.error "network error") (.ok ["Basemaps/Topographic"]) demoDescribe =
      .error "network error" ∧
    loadAllLayers (.ok ["CadastreParcels"]) (.error "network error") demoDescribe =
      .error "network error" := by
  have h := C3_namespace_listing_failure_aborts ["CadastreParcels"] ["Basemaps/Topographic"]
    "network error" (.ok ["Basemaps/Topographic"]) demoDescribe
  exact ⟨h.1, h.2.1⟩

/-- Counterexample for C3 as frozen: with the public listing failing, the
basemap listing succeeding, and every describe call succeeding,
`loadAllLayers` returns a hard error — not the surviving basemap
namespace's layers (which would be nonempty: the basemap service
flattens to one virtual layer). -/
theorem C3_namespace_listing_failure_aborts_counterexample :
    loadAllLayers (.error "network error") (.ok ["Basemaps/Topographic"]) demoDescribe =
      .error "network error" ∧
    serviceToLayers "Basemaps/Topographic" (demoDescribe "Basemaps/Topographic") ≠ [] := by
  exact ⟨rfl, by decide⟩

theorem decodeStrList_encode (l : List String) :
    decodeStrList (JsonVal.arr (l.map .str)) = some l := by
  simp only [decodeStrList]
  induction l with
  | nil => rfl
  | cons a l ih => simp [traverseOption, jsonStr?, ih]

theorem traverse_decode_opacity (m : List (String × ℚ)) :
    traverseOption decodeOpacityEntry (m.map encodeOpacityEntry) = some m := by
  induction m with
  | nil => rfl
  | cons p m ih => simp [traverseOption, encodeOpacityEntry, decodeOpacityEntry, jsonStr?,
      jsonNum?, ih]

theorem traverse_decode_visibility (m : List (String × Bool)) :
    traverseOption decodeVisibilityEntry (m.map encodeVisibilityEntry) = some m := by
  induction m with
  | nil => rfl
  | cons p m ih => simp [traverseOption, encodeVisibilityEntry, decodeVisibilityEntry, jsonStr?,
      jsonBool?, ih]

theorem traverse_decode_fields (m : List (String × List String)) :
    traverseOption decodeFieldsEntry (m.map encodeFieldsEntry) = some m := by
  induction m with
  | nil => rfl
  | cons p m ih => simp [traverseOption, encodeFieldsEntry, decodeFieldsEntry, jsonStr?,
      decodeStrList_encode, ih]

theorem decodePersistedState_encode (p : PersistedMapState) :
    decodePersistedState (encodePersistedState p) = some p := by
  simp [decodePersistedState, encodePersistedState, jsonField, List.find?, jsonStr?, jsonNum?,
    decodeStrList_encode, traverse_decode_opacity, traverse_decode_visibility,
    traverse_decode_fields, decodeCenter]

/-- **C4**: `saveState` followed by a load of the persisted snapshot yields
exactly the projected snapshot, and every tracked field of that snapshot
(active basemap, both active-id sets, the order sequence, the opacity and
visibility maps, favorites, searchable-field selections, center, zoom,
bearing) equals the corresponding field of the saved session state — for
every session state, hence for active-layer sets of size 0, 1, and
greater. -/
theorem C4_persistence_round_trip (s : MapStoreState) (storage : Option JsonVal) :
    loadStateFromStorage (saveState s storage) = some (persistedStateOf s) ∧
    (persistedStateOf s).activeBasemap = s.activeBasemap ∧
    (persistedStateOf s).activeLayerIds = s.activeLayerIds ∧
    (persistedStateOf s).activeDynamicLayerIds = s.activeDynamicLayerIds ∧
    (persistedStateOf s).dynamicLayerOrder = s.dynamicLayerOrder ∧
    (persistedStateOf s).dynamicLayerOpacities = s.dynamicLayerOpacities ∧
    (persistedStateOf s).dynamicLayerVisibilities = s.dynamicLayerVisibilities ∧
    (persistedStateOf s).favoriteLayerIds = s.favoriteLayerIds ∧
    (persistedStateOf s).layerSearchableFields = s.layerSearchableFields ∧
    (persistedStateOf s).center = s.center ∧
    (persistedStateOf s).zoom = s.zoom ∧
    (persistedStateOf s).bearing = s.bearing := by
  refine ⟨?_, rfl, rfl, rfl, rfl, rfl, rfl, rfl, rfl, rfl, rfl, rfl⟩
  simp only [saveState, saveStateToStorage, loadStateFromStorage, Option.bind]
  exact decodePersistedState_encode _

theorem parseCoordinateInput_eq_of (input : String) (t1 t2 : List Char) (e n : ℚ)
    (hin : ¬ input = "") (hsp : splitFields (jsTrim input.data) = [t1, t2])
    (h1 : jsParseFloatFinite t1 = some e) (h2 : jsParseFloatFinite t2 = some n) :
    parseCoordinateInput input = some ⟨e, n⟩ := by
  unfold parseCoordinateInput
  rw [if_neg hin]
  simp only [hsp, h1, h2]

theorem jsParseFloatFinite_523456 : jsParseFloatFinite "523456".data = some (523456 : ℚ) := by
  have h : jsParseFloatFinite "523456".data =
      some ((1 : ℚ) * (((523456 : ℕ) : ℚ) + ((0 : ℕ) : ℚ) / (10 : ℚ) ^ 0) * (10 : ℚ) ^ (0 : ℤ)) :=
    rfl
  rw [h]
  norm_num

theorem jsParseFloatFinite_5248123 : jsParseFloatFinite "5248123".data = some (5248123 : ℚ) := by
  have h : jsParseFloatFinite "5248123".data =
      some ((1 : ℚ) * (((5248123 : ℕ) : ℚ) + ((0 : ℕ) : ℚ) / (10 : ℚ) ^ 0) * (10 : ℚ) ^ (0 : ℤ)) :=
    rfl
  rw [h]
  norm_num

/-- **C8** (amended): `parseCoordinateInput` accepts exactly the inputs
that tokenize — after trimming, treating each maximal run of whitespace
and/or commas as one separator — into exactly two tokens, each of which
carries a finite numeric prefix in the sense of JS `parseFloat` (the
token need not be entirely numeric: `parseFloat` reads the longest
numeric-literal prefix); accepted inputs yield those two parsed values as
`{easting, northing}` and every other input yields `null`.  The spec's
forms `"E N"`, `"E, N"`, `"E,N"` parse to the spec values, and `"abc"`
parses to `null`. -/
theorem C8_parse_coordinate_input (input : String) (c : MGACoordinate) :
    (parseCoordinateInput input = some c ↔
      (¬ input = "" ∧ ∃ t1 t2, splitFields (jsTrim input.data) = [t1, t2] ∧
        jsParseFloatFinite t1 = some c.easting ∧ jsParseFloatFinite t2 = some c.northing)) ∧
    parseCoordinateInput "523456, 5248123" = some ⟨523456, 5248123⟩ ∧
    parseCoordinateInput "523456 5248123" = some ⟨523456, 5248123⟩ ∧
    parseCoordinateInput "523456,5248123" = some ⟨523456, 5248123⟩ ∧
    parseCoordinateInput "abc" = none := by
  refine ⟨?_, ?_, ?_, ?_, by decide⟩
  · by_cases hin : input = ""
    · simp [parseCoordinateInput, hin]
    · constructor
      · intro h
        rw [parseCoordinateInput, if_neg hin] at h
        rcases hsp : splitFields (jsTrim input.data) with _ | ⟨t1, ts⟩
        · rw [hsp] at h; exact absurd h (by simp)
        rcases ts with _ | ⟨t2, ts2⟩
        · rw [hsp] at h; exact absurd h (by simp)
        rcases ts2 with _ | ⟨t3, ts3⟩
        · rw [hsp] at h
          have h' : (match jsParseFloatFinite t1, jsParseFloatFinite t2 with
            | some easting, some northing => some (⟨easting, northing⟩ : MGACoordinate)
            | _, _ => none) = some c := h
          rcases h1 : jsParseFloatFinite t1 with _ | e
          · rw [h1] at h'; exact absurd h' (by simp)
          rcases h2 : jsParseFloatFinite t2 with _ | n
          · rw [h1, h2] at h'; exact absurd h' (by simp)
          rw [h1, h2] at h'
          simp only [Option.some.injEq] at h'
          subst h'
          exact ⟨hin, t1, t2, rfl, h1, h2⟩
        · rw [hsp] at h; exact absurd h (by simp)
      · rintro ⟨-, t1, t2, hsp, h1, h2⟩
        have := parseCoordinateInput_eq_of input t1 t2 c.easting c.northing hin hsp h1 h2
        simpa using this
  · exact parseCoordinateInput_eq_of _ _ _ _ _ (by decide) (by decide)
      jsParseFloatFinite_523456 jsParseFloatFinite_5248123
  · exact parseCoordinateInput_eq_of _ _ _ _ _ (by decide) (by decide)
      jsParseFloatFinite_523456 jsParseFloatFinite_5248123
  · exact parseCoordinateInput_eq_of _ _ _ _ _ (by decide) (by decide)
      jsParseFloatFinite_523456 jsParseFloatFinite_5248123

/-- Witness for C8: the spec's comma-space form parses to the spec
values. -/
theorem C8_parse_coordinate_input_witness :
    parseCoordinateInput "523456, 5248123" = some ⟨523456, 5248123⟩ :=
  (C8_parse_coordinate_input "523456, 5248123" ⟨523456, 5248123⟩).2.1

/-- Counterexample for C8 as frozen: `"12abc 34"` does not consist of two
numeric tokens, yet `parseCoordinateInput` does not return `null` — JS
`parseFloat` accepts the numeric prefix `12` of `"12abc"`, a partial
success the claim rules out. -/
theorem C8_parse_coordinate_input_counterexample :
    (parseCoordinateInput "12abc 34").isSome = true := by
  decide

theorem webMercatorLat_mem (y : ℝ) : -90 < webMercatorLat y ∧ webMercatorLat y < 90 := by
  have hpi := Real.pi_pos
  have hlt : Real.arctan (Real.exp (y / 20037508.34 * Real.pi)) < Real.pi / 2 :=
    Real.arctan_lt_pi_div_two _
  have hgt : 0 < Real.arctan (Real.exp (y / 20037508.34 * Real.pi)) := by
    rw [← Real.arctan_zero]
    exact Real.arctan_strictMono (Real.exp_pos _)
  constructor
  · have h1 : 0 < Real.arctan (Real.exp (y / 20037508.34 * Real.pi)) * 360 / Real.pi := by
      positivity
    unfold webMercatorLat
    linarith
  · have h2 : Real.arctan (Real.exp (y / 20037508.34 * Real.pi)) * 360 / Real.pi < 180 := by
      rw [div_lt_iff₀ hpi]
      nlinarith
    unfold webMercatorLat
    linarith

theorem webMercatorLng_le (x : ℝ) (h : |x| ≤ 20037508.34) : |webMercatorLng x| ≤ 180 := by
  unfold webMercatorLng
  rw [abs_mul, abs_div]
  have h1 : |x| / |(20037508.34 : ℝ)| ≤ 1 := by
    rw [div_le_one (by norm_num)]
    calc |x| ≤ 20037508.34 := h
    _ ≤ |(20037508.34 : ℝ)| := le_abs_self _
  have h2 : |(180 : ℝ)| = 180 := by norm_num
  rw [h2]
  nlinarith [abs_nonneg x, abs_nonneg (180 : ℝ)]

/-- **C9** (amended): `processGeometry` treats a point with `|x| > 180` or
`|y| > 90` as projected and applies the spherical Web-Mercator inverse;
the result is a valid geographic point — latitude strictly inside
`(-90, 90)` always, longitude within `[-180, 180]` whenever the input is
inside the Web-Mercator easting range `|x| ≤ 20037508.34` — but not
necessarily inside the target region's (Tasmania's) bounds.  A point
already in geographic range (`|x| ≤ 180` and `|y| ≤ 90`) passes through
with its coordinates unchanged. -/
theorem C9_geometry_normalization (x y : ℝ) :
    ((|x| > 180 ∨ |y| > 90) →
      processGeometry (some (.point x y)) =
        some (.point (webMercatorLng x) (webMercatorLat y)) ∧
      -90 < webMercatorLat y ∧ webMercatorLat y < 90 ∧
      (|x| ≤ 20037508.34 → |webMercatorLng x| ≤ 180)) ∧
    (|x| ≤ 180 → |y| ≤ 90 →
      processGeometry (some (.point x y)) = some (.point x y)) := by
  constructor
  · intro h
    refine ⟨?_, (webMercatorLat_mem y).1, (webMercatorLat_mem y).2, webMercatorLng_le x⟩
    simp only [processGeometry, if_pos h]
  · intro hx hy
    have h : ¬ (|x| > 180 ∨ |y| > 90) := by
      push_neg
      exact ⟨hx, hy⟩
    simp only [processGeometry, if_neg h]

/-- Witness for C9: the projected point `(300, 0)` is converted to a valid
geographic point, and the in-range point `(147, -42)` passes through
unchanged. -/
theorem C9_geometry_normalization_witness :
    processGeometry (some (.point 300 0)) =
      some (.point (webMercatorLng 300) (webMercatorLat 0)) ∧
    -90 < webMercatorLat 0 ∧ webMercatorLat 0 < 90 ∧
    |webMercatorLng 300| ≤ 180 ∧
    processGeometry (some (.point 147 (-42))) = some (.point 147 (-42)) := by
  have h1 := (C9_geometry_normalization 300 0).1 (by norm_num)
  have h2 := (C9_geometry_normalization 147 (-42)).2 (by norm_num) (by norm_num)
  exact ⟨h1.1, h1.2.1, h1.2.2.1, h1.2.2.2 (by norm_num), h2⟩

/-- Counterexample for C9 as frozen: the point `(0, 100)` has `|y| > 90`,
so it is converted — but its converted longitude is `0`, far outside the
target region's known bounds (`TASMANIA_BOUNDS`: longitude in
`[140, 152]`), refuting "converted to a geographic point lying within the
target region's known bounds". -/
theorem C9_geometry_normalization_counterexample :
    processGeometry (some (.point 0 100)) =
      some (.point (webMercatorLng 0) (webMercatorLat 100)) ∧
    webMercatorLng 0 = 0 ∧
    ¬ withinTasmaniaBounds (webMercatorLng 0) (webMercatorLat 100) := by
  have hlng : webMercatorLng 0 = 0 := by
    unfold webMercatorLng
    norm_num
  refine ⟨?_, hlng, ?_⟩
  · simp only [processGeometry, if_pos (Or.inr (by norm_num : |(100 : ℝ)| > 90))]
  · intro hb
    rw [hlng] at hb
    have := hb.1
    norm_num at this

theorem charListLe_refl : ∀ (as : List Char), charListLe as as = true
  | [] => rfl
  | a :: as => by simp [charListLe, charListLe_refl as]

theorem charListLe_total : ∀ (as bs : List Char),
    charListLe as bs = true ∨ charListLe bs as = true
  | [], _ => Or.inl rfl
  | _ :: _, [] => Or.inr rfl
  | a :: as, b :: bs => by
    by_cases h1 : a.toNat < b.toNat
    · left; simp [charListLe, h1]
    · by_cases h2 : b.toNat < a.toNat
      · right; simp [charListLe, h2]
      · rcases charListLe_total as bs with h | h
        · left; simp [charListLe, h1, h2, h]
        · right; simp [charListLe, h1, h2, h]

theorem charListLe_trans : ∀ (as bs cs : List Char),
    charListLe as bs = true → charListLe bs cs = true → charListLe as cs = true
  | [], _, _, _, _ => rfl
  | _ :: _, [], _, h1, _ => by simp [charListLe] at h1
  | _ :: _, _ :: _, [], _, h2 => by simp [charListLe] at h2
  | a :: as, b :: bs, c :: cs, h1, h2 => by
    simp only [charListLe] at h1 h2 ⊢
    by_cases hab : a.toNat < b.toNat
    · by_cases hbc : b.toNat < c.toNat
      · rw [if_pos (by omega : a.toNat < c.toNat)]
      · by_cases hcb : c.toNat < b.toNat
        · simp only [if_neg hbc, if_pos hcb] at h2
          exact absurd h2 (by simp)
        · rw [if_pos (by omega : a.toNat < c.toNat)]
    · by_cases hba : b.toNat < a.toNat
      · simp only [if_neg hab, if_pos hba] at h1
        exact absurd h1 (by simp)
      · by_cases hbc : b.toNat < c.toNat
        · rw [if_pos (by omega : a.toNat < c.toNat)]
        · by_cases hcb : c.toNat < b.toNat
          · simp only [if_neg hbc, if_pos hcb] at h2
            exact absurd h2 (by simp)
          · simp only [if_neg hab, if_neg hba] at h1
            simp only [if_neg hbc, if_neg hcb] at h2
            rw [if_neg (by omega : ¬ a.toNat < c.toNat),
              if_neg (by omega : ¬ c.toNat < a.toNat)]
            exact charListLe_trans as bs cs h1 h2

theorem searchCmpLe_iff (searchTerm : String) (a b : SearchResult) :
    searchCmpLe searchTerm a b = true ↔
      (searchRank searchTerm (strLower (a.displayName.getD "")) <
        searchRank searchTerm (strLower (b.displayName.getD "")) ∨
      (searchRank searchTerm (strLower (a.displayName.getD "")) =
        searchRank searchTerm (strLower (b.displayName.getD "")) ∧
        strLe (strLower (a.displayName.getD "")) (strLower (b.displayName.getD "")) = true)) := by
  have hrefl : ∀ s : String, strLe s s = true := fun s => charListLe_refl s.data
  unfold searchCmpLe searchRank
  by_cases ha : strLower (a.displayName.getD "") = searchTerm <;>
    by_cases hb : strLower (b.displayName.getD "") = searchTerm
  · simp [ha, hb, hrefl]
  · simp only [ha, hb]
    simp only [beq_self_eq_true, Bool.true_and, Bool.not_eq_true']
    by_cases sb : strStartsWith (strLower (b.displayName.getD "")) searchTerm = true <;>
      simp [ha, hb, sb, beq_iff_eq]
  · simp only [ha, hb]
    by_cases sa : strStartsWith (strLower (a.displayName.getD "")) searchTerm = true <;>
      simp [ha, hb, sa, beq_iff_eq]
  · by_cases sa : strStartsWith (strLower (a.displayName.getD "")) searchTerm = true <;>
      by_cases sb : strStartsWith (strLower (b.displayName.getD "")) searchTerm = true <;>
      simp [ha, hb, sa, sb, beq_iff_eq]

theorem searchCmpLe_trans (searchTerm : String) (a b c : SearchResult)
    (h1 : searchCmpLe searchTerm a b = true) (h2 : searchCmpLe searchTerm b c = true) :
    searchCmpLe searchTerm a c = true := by
  rw [searchCmpLe_iff] at h1 h2 ⊢
  rcases h1 with h1 | ⟨h1e, h1le⟩ <;> rcases h2 with h2 | ⟨h2e, h2le⟩
  · left; omega
  · left; omega
  · left; omega
  · right
    refine ⟨by omega, ?_⟩
    unfold strLe at h1le h2le ⊢
    exact charListLe_trans _ _ _ h1le h2le

theorem searchCmpLe_total (searchTerm : String) (a b : SearchResult) :
    searchCmpLe searchTerm a b = true ∨ searchCmpLe searchTerm b a = true := by
  rw [searchCmpLe_iff, searchCmpLe_iff]
  rcases Nat.lt_trichotomy
    (searchRank searchTerm (strLower (a.displayName.getD "")))
    (searchRank searchTerm (strLower (b.displayName.getD ""))) with h | h | h
  · exact Or.inl (Or.inl h)
  · rcases charListLe_total (strLower (a.displayName.getD "")).data
      (strLower (b.displayName.getD "")).data with hle | hle
    · exact Or.inl (Or.inr ⟨h, hle⟩)
    · exact Or.inr (Or.inr ⟨h.symm, hle⟩)
  · exact Or.inr (Or.inl h)

theorem searchFeatures_results_sorted
    (fetch : SearchableLayer → Except String (List SearchResult))
    (layers : List SearchableLayer) (text : String) (whereClause : Option String)
    (maxResults : Nat) :
    List.Pairwise (fun a b => searchCmpLe (strLower text) a b = true)
      (searchFeatures fetch layers text whereClause maxResults).results := by
  unfold searchFeatures
  by_cases hg : jsTrimString text = "" ∧ whereClause = none
  · rw [if_pos hg]
    exact List.Pairwise.nil
  · rw [if_neg hg]
    apply List.Pairwise.sublist (List.take_sublist _ _)
    haveI : IsTotal SearchResult (fun a b => searchCmpLe (strLower text) a b = true) :=
      ⟨searchCmpLe_total (strLower text)⟩
    haveI : IsTrans SearchResult (fun a b => searchCmpLe (strLower text) a b = true) :=
      ⟨searchCmpLe_trans (strLower text)⟩
    exact List.sorted_insertionSort _ _

/-- **C5**: `searchFeatures` ranks its merged result list case-folded —
every pair of retained results is ordered by relevance rank (exact match
of the query before prefix match before the rest) and, within equal rank,
by the code-point order of the lower-cased display names (the model of
`localeCompare`-alphabetical); and for query `"hobart"` over display
names `["Hobart Creek", "Hobart", "Ahobart"]` the returned order is
`["Hobart", "Hobart Creek", "Ahobart"]`. -/
theorem C5_search_ranking (fetch : SearchableLayer → Except String (List SearchResult))
    (layers : List SearchableLayer) (text : String) (whereClause : Option String)
    (maxResults : Nat) :
    List.Pairwise (fun a b =>
      searchRank (strLower text) (strLower (a.displayName.getD "")) ≤
        searchRank (strLower text) (strLower (b.displayName.getD "")) ∧
      (searchRank (strLower text) (strLower (a.displayName.getD "")) =
          searchRank (strLower text) (strLower (b.displayName.getD "")) →
        strLe (strLower (a.displayName.getD "")) (strLower (b.displayName.getD "")) = true))
      (searchFeatures fetch layers text whereClause maxResults).results ∧
    (searchFeatures hobartFetch [demoLayer] "hobart" none 10).results.map
      (fun r => r.displayName) = [some "Hobart", some "Hobart Creek", some "Ahobart"] := by
  constructor
  · apply (searchFeatures_results_sorted fetch layers text whereClause maxResults).imp
    intro a b hab
    rw [searchCmpLe_iff] at hab
    rcases hab with h | ⟨he, hle⟩
    · exact ⟨Nat.le_of_lt h, fun he => absurd (he ▸ h) (lt_irrefl _)⟩
    · exact ⟨Nat.le_of_eq he, fun _ => hle⟩
  · decide

/-- **C6** (amended): `queryFeaturesAtLocation` sorts the merged list with
a pairwise comparator, and only Point-geometry features carry a computed
distance; a pair that both carry distances is ordered ascending by
distance, but any pair in which either feature lacks a distance — in
particular every point/non-point pair — is ordered by layer name and then
display name.  A non-point feature is therefore NOT globally ranked after
the point features.  On an all-point merged list the result is ascending
by distance (concrete instance: squared distances `[1, 4, 25]`). -/
theorem C6_click_query_sort :
    (∀ (clickPoint : ℚ × ℚ) (g : Option FeatureGeometry),
      (calculateDistance clickPoint g).isSome = true ↔
        ∃ x y, g = some (.point x y)) ∧
    (∀ (a b : ClickQueryResult) (da db : ℚ), a.distance = some da → b.distance = some db →
      clickCmpLe a b = decide (da ≤ db)) ∧
    (∀ a b : ClickQueryResult, a.distance = none ∨ b.distance = none →
      clickCmpLe a b =
        (if a.layerName = b.layerName then
          strLe (a.displayName.getD "") (b.displayName.getD "")
        else strLe a.layerName b.layerName)) ∧
    (queryFeaturesAtLocation pointsClickFetch [layerZebra] (0, 0) 5).results.map
      (fun r => r.distance) = [some 1, some 4, some 25] := by
  refine ⟨?_, ?_, ?_, ?_⟩
  · intro clickPoint g
    rcases g with _ | g
    · simp [calculateDistance]
    · rcases g with ⟨x, y⟩ | p | r <;> simp [calculateDistance]
  · intro a b da db ha hb
    unfold clickCmpLe
    rw [ha, hb]
  · intro a b h
    unfold clickCmpLe
    rcases h with h | h
    · rw [h]
      rcases hb : b.distance with _ | db <;>
        · by_cases hn : a.layerName = b.layerName <;> simp [hn]
    · rw [h]
      rcases ha : a.distance with _ | da <;>
        · by_cases hn : a.layerName = b.layerName <;> simp [hn]
  · norm_num [queryFeaturesAtLocation, pointsClickFetch, attachDistance, calculateDistance,
      clickCmpLe, List.insertionSort, List.orderedInsert, layerZebra, decide_eq_true_eq]

/-- Witness for C6: two features with computed squared distances 1 and 4
compare ascending by distance. -/
theorem C6_click_query_sort_witness :
    clickCmpLe ⟨⟨"a", "L1", "Alpha", "S", some "x", none⟩, some 1⟩
      ⟨⟨"b", "L2", "Beta", "S", some "y", none⟩, some 4⟩ = true := by
  have h := C6_click_query_sort.2.1
    ⟨⟨"a", "L1", "Alpha", "S", some "x", none⟩, some 1⟩
    ⟨⟨"b", "L2", "Beta", "S", some "y", none⟩, some 4⟩ 1 4 rfl rfl
  rw [h, decide_eq_true_eq]
  norm_num

/-- Counterexample for C6 as frozen: layer `Alphabet` returns one polyline
(non-point) feature and layer `Zebra` one point feature; in the sorted
response the non-point feature ranks FIRST (layer-name comparison), not
after the point feature — refuting "every feature with non-point geometry
sorts after every point feature". -/
theorem C6_click_query_sort_counterexample :
    (queryFeaturesAtLocation mixedClickFetch [layerAlphabet, layerZebra] (0, 0) 5).results.map
      (fun r => (r.layerName, r.distance.isSome)) = [("Alphabet", false), ("Zebra", true)] ∧
    lineFeature.geometry = some (.polyline [[(0, 0), (1, 1)]]) ∧
    pointFeature.geometry = some (.point 3 4) := by
  exact ⟨by decide, rfl, rfl⟩

theorem flatten_filterMap_length_le {α β : Type} (f : α → Option (List β)) (l : List α)
    (n : ℕ) (h : ∀ a ∈ l, ∀ v, f a = some v → v.length ≤ n) :
    ((l.filterMap f).flatten).length ≤ n * l.length := by
  induction l with
  | nil => simp
  | cons a l ih =>
    have h2 := ih (fun a2 ha v2 hv => h a2 (List.mem_cons_of_mem _ ha) v2 hv)
    rcases hfa : f a with _ | v
    · simp only [List.filterMap_cons, hfa, List.length_cons, Nat.mul_succ]
      omega
    · have h1 := h a (List.mem_cons_self a l) v hfa
      simp only [List.filterMap_cons, hfa, List.flatten_cons, List.length_append,
        List.length_cons, Nat.mul_succ]
      omega

theorem errors_key_mem (fetch : SearchableLayer → Except String (List SearchResult))
    (layers : List SearchableLayer) :
    ∀ p ∈ layers.filterMap (fun l =>
      match fetch l with
      | .ok _ => none
      | .error e => some (l.id, e)),
      p.1 ∈ layers.map (fun l => l.id) := by
  intro p hp
  obtain ⟨l, hl, hfl⟩ := List.mem_filterMap.mp hp
  rcases hf : fetch l with e | v
  · rw [hf] at hfl
    simp only [Option.some.injEq] at hfl
    rw [← hfl]
    exact List.mem_map.mpr ⟨l, hl, rfl⟩
  · rw [hf] at hfl
    cases hfl

theorem errors_filter_count (fetch : SearchableLayer → Except String (List SearchResult)) :
    ∀ (layers : List SearchableLayer),
      (layers.map (fun l => l.id)).Nodup → ∀ l ∈ layers, ∀ e, fetch l = .error e →
      ((layers.filterMap (fun l2 =>
        match fetch l2 with
        | .ok _ => none
        | .error e2 => some (l2.id, e2))).filter (fun p => p.1 == l.id)).length = 1 := by
  intro layers
  induction layers with
  | nil => intro _ l hl; cases hl
  | cons a rest ih =>
    intro hnd l hl e he
    rw [List.map_cons, List.nodup_cons] at hnd
    obtain ⟨hna, hndr⟩ := hnd
    rcases List.mem_cons.mp hl with rfl | hl2
    · simp only [List.filterMap_cons, he]
      rw [List.filter_cons]
      simp only [beq_self_eq_true, if_true, List.length_cons]
      have hclean : (rest.filterMap (fun l2 =>
          match fetch l2 with
          | .ok _ => none
          | .error e2 => some (l2.id, e2))).filter (fun p => p.1 == l.id) = [] := by
        rw [List.filter_eq_nil_iff]
        intro p hp
        have hmem := errors_key_mem fetch rest p hp
        intro hbeq
        exact hna (beq_iff_eq.mp hbeq ▸ hmem)
      rw [hclean]
      rfl
    · have haid : ¬ a.id = l.id := by
        intro hEq
        exact hna (hEq ▸ List.mem_map.mpr ⟨l, hl2, rfl⟩)
      have htail := ih hndr l hl2 e he
      rcases hfa : fetch a with e2 | v
      · simp only [List.filterMap_cons, hfa]
        rw [List.filter_cons]
        simp only [show (a.id == l.id) = false from by simpa [beq_iff_eq] using haid,
          if_false]
        exact htail
      · simp only [List.filterMap_cons, hfa]
        exact htail

/-- **C1**: both `searchFeatures` and `queryFeaturesAtLocation` join their
per-layer requests with a settle-all join.  For any partition of the
queried layers into failing and succeeding ones (the oracle fixes which),
the response's results are exactly the concatenation of the successful
layers' features (up to the relevance/distance ordering — a permutation),
every successful layer's features all appear, and the errors list has
exactly one entry per failed layer, keyed by that layer's id; a failing
layer never removes, blocks, or alters any other layer's results.  The
per-layer cap hypothesis reflects `resultRecordCount = maxResults` in the
per-layer request, which makes the final `maxResults × N` slice lossless. -/
theorem C1_settle_all_isolation
    (fetchS fetchC : SearchableLayer → Except String (List SearchResult))
    (layers : List SearchableLayer) (text : String) (maxResults : Nat)
    (clickPoint : ℚ × ℚ)
    (htext : ¬ jsTrimString text = "")
    (hcapS : ∀ l ∈ layers, ∀ v, fetchS l = Except.ok v → v.length ≤ maxResults)
    (hcapC : ∀ l ∈ layers, ∀ v, fetchC l = Except.ok v → v.length ≤ maxResults)
    (hids : (layers.map (fun l => l.id)).Nodup) :
    ((searchFeatures fetchS layers text none maxResults).results.Perm
        ((layers.filterMap (fun l => (fetchS l).toOption)).flatten) ∧
      (searchFeatures fetchS layers text none maxResults).errors =
        layers.filterMap (fun l =>
          match fetchS l with
          | .ok _ => none
          | .error e => some (l.id, e)) ∧
      (∀ l ∈ layers, ∀ v, fetchS l = Except.ok v → ∀ r ∈ v,
        r ∈ (searchFeatures fetchS layers text none maxResults).results) ∧
      (∀ l ∈ layers, ∀ e, fetchS l = Except.error e →
        ((searchFeatures fetchS layers text none maxResults).errors.filter
          (fun p => p.1 == l.id)).length = 1)) ∧
    ((queryFeaturesAtLocation fetchC layers clickPoint maxResults).results.Perm
        ((layers.filterMap (fun l => ((fetchC l).toOption).map
          (fun v => v.map (attachDistance clickPoint)))).flatten) ∧
      (queryFeaturesAtLocation fetchC layers clickPoint maxResults).errors =
        layers.filterMap (fun l =>
          match fetchC l with
          | .ok _ => none
          | .error e => some (l.id, e)) ∧
      (∀ l ∈ layers, ∀ v, fetchC l = Except.ok v → ∀ r ∈ v,
        attachDistance clickPoint r ∈
          (queryFeaturesAtLocation fetchC layers clickPoint maxResults).results) ∧
      (∀ l ∈ layers, ∀ e, fetchC l = Except.error e →
        ((queryFeaturesAtLocation fetchC layers clickPoint maxResults).errors.filter
          (fun p => p.1 == l.id)).length = 1)) := by
  have hguard : ¬ (jsTrimString text = "" ∧ (none : Option String) = none) :=
    fun hg => htext hg.1
  have hcapS2 : ∀ a ∈ layers, ∀ v, (fetchS a).toOption = some v → v.length ≤ maxResults := by
    intro a ha v hv
    rcases hfa : fetchS a with e | w
    · rw [hfa] at hv; cases hv
    · rw [hfa] at hv
      simp only [Except.toOption, Option.some.injEq] at hv
      exact hv ▸ hcapS a ha w hfa
  have hcapC2 : ∀ a ∈ layers, ∀ v,
      ((fetchC a).toOption).map (fun v => v.map (attachDistance clickPoint)) = some v →
      v.length ≤ maxResults := by
    intro a ha v hv
    rcases hfa : fetchC a with e | w
    · rw [hfa] at hv; cases hv
    · rw [hfa] at hv
      simp only [Except.toOption, Option.map_some', Option.some.injEq] at hv
      rw [← hv, List.length_map]
      exact hcapC a ha w hfa
  have hresS : (searchFeatures fetchS layers text none maxResults).results =
      ((layers.filterMap (fun l => (fetchS l).toOption)).flatten).insertionSort
        (fun a b => searchCmpLe (strLower text) a b = true) := by
    unfold searchFeatures
    rw [if_neg hguard]
    apply List.take_of_length_le
    rw [(List.perm_insertionSort _ _).length_eq]
    exact flatten_filterMap_length_le _ _ _ hcapS2
  have herrS : (searchFeatures fetchS layers text none maxResults).errors =
      layers.filterMap (fun l =>
        match fetchS l with
        | .ok _ => none
        | .error e => some (l.id, e)) := by
    unfold searchFeatures
    rw [if_neg hguard]
  have hresC : (queryFeaturesAtLocation fetchC layers clickPoint maxResults).results =
      ((layers.filterMap (fun l => ((fetchC l).toOption).map
        (fun v => v.map (attachDistance clickPoint)))).flatten).insertionSort
        (fun a b => clickCmpLe a b = true) := by
    unfold queryFeaturesAtLocation
    by_cases hlay : layers = []
    · subst hlay
      simp
    · rw [if_neg hlay]
      apply List.take_of_length_le
      rw [(List.perm_insertionSort _ _).length_eq]
      exact flatten_filterMap_length_le _ _ _ hcapC2
  have herrC : (queryFeaturesAtLocation fetchC layers clickPoint maxResults).errors =
      layers.filterMap (fun l =>
        match fetchC l with
        | .ok _ => none
        | .error e => some (l.id, e)) := by
    unfold queryFeaturesAtLocation
    by_cases hlay : layers = []
    · subst hlay
      simp
    · rw [if_neg hlay]
  refine ⟨⟨?_, herrS, ?_, ?_⟩, ?_, herrC, ?_, ?_⟩
  · rw [hresS]
    exact List.perm_insertionSort _ _
  · intro l hl v hv r hr
    rw [hresS]
    refine ((List.perm_insertionSort _ _).mem_iff).mpr ?_
    exact List.mem_flatten.mpr
      ⟨v, List.mem_filterMap.mpr ⟨l, hl, by rw [hv]; rfl⟩, hr⟩
  · intro l hl e he
    rw [herrS]
    exact errors_filter_count fetchS layers hids l hl e he
  · rw [hresC]
    exact List.perm_insertionSort _ _
  · intro l hl v hv r hr
    rw [hresC]
    refine ((List.perm_insertionSort _ _).mem_iff).mpr ?_
    refine List.mem_flatten.mpr
      ⟨v.map (attachDistance clickPoint),
        List.mem_filterMap.mpr ⟨l, hl, by rw [hv]; rfl⟩, ?_⟩
    exact List.mem_map.mpr ⟨r, hr, rfl⟩
  · intro l hl e he
    rw [herrC]
    exact errors_filter_count fetchC layers hids l hl e he

/-- Witness for C1: two layers, layer `A` succeeding with one feature and
layer `B` failing — both engines report exactly one error entry keyed
`"B"` while layer `A`'s result survives. -/
theorem C1_settle_all_isolation_witness :
    (searchFeatures abFetch [layerA, layerB] "hobart" none 10).errors =
      [("B", "Server error when querying Beta layer")] ∧
    (queryFeaturesAtLocation abFetch [layerA, layerB] (147, -42) 10).errors =
      [("B", "Server error when querying Beta layer")] ∧
    (searchFeatures abFetch [layerA, layerB] "hobart" none 10).results.map
      (fun r => r.layerId) = ["A"] ∧
    (queryFeaturesAtLocation abFetch [layerA, layerB] (147, -42) 10).results.map
      (fun r => r.layerId) = ["A"] := by
  have hcap : ∀ l ∈ [layerA, layerB], ∀ v, abFetch l = Except.ok v → v.length ≤ 10 := by
    intro l hl v hv
    fin_cases hl
    · simp only [abFetch, layerA] at hv
      simp only [show (("A" : String) == "A") = true from rfl, if_true,
        Except.ok.injEq] at hv
      rw [← hv]
      decide
    · simp only [abFetch, layerB] at hv
      simp only [show (("B" : String) == "A") = false from rfl, if_false] at hv
      cases hv
  have h := C1_settle_all_isolation abFetch abFetch [layerA, layerB] "hobart" 10 (147, -42)
    (by decide) hcap hcap (by decide)
  refine ⟨?_, ?_, ?_, ?_⟩
  · rw [h.1.2.1]; decide
  · rw [h.2.2.1]; decide
  · have := h.1.1
    decide
  · have := h.2.1
    decide
